import Mathlib

/-!
Verification of LAGraph_tricount (Source/Algorithm/LAGraph_tricount.c).

The development shallowly embeds the triangle-counting routine:

* Sparse boolean structures over an n-by-n index space are functions
  `Fin n → Fin n → Bool` (only the structure of a GraphBLAS matrix matters:
  the PLUS_PAIR_INT64 semiring together with the structural mask descriptors
  GrB_DESC_S / GrB_DESC_ST1 ignores all stored values).
* `tril`/`triu` embed GxB_select with GxB_TRIL / GxB_TRIU and an integer
  thunk: GxB_TRIL keeps an entry (i,j) when j - i <= thunk, GxB_TRIU keeps
  it when j - i >= thunk.
* `tricount_prep_select` embeds the GxB_select-based branch of tricount_prep;
  `tricount_prep_extract` embeds the extractTuples/filter/build fallback
  branch.
* `mxmMasked`/`reduceAll` embed the masked GrB_mxm (with the PLUS_PAIR
  semiring an output entry holds the number of contributing products) and
  the GrB_reduce to scalar.
* `methodCall` records, for each of the six switch cases, which structure is
  the mask, which are the two multiplication inputs, and whether the
  descriptor (desc_st1 = GrB_DESC_ST1) asks for the second input to be read
  transposed.  `LAGraph_tricount` composes these with the per-method divisor.
* A separate resource-trace model (`tricount_trace`) embeds the order of the
  fallible GraphBLAS primitives executed by LAGraph_tricount together with
  the LAGRAPH_FREE_ALL cleanup macros, to settle the claims about
  allocation ordering and failure cleanup.  The semantics of the checking
  wrappers (LAGr_* / LAGRAPH_OK / LAGRAPH_ERROR, declared in
  LAGraph_internal.h which is not part of this tree) is modelled from the
  spec: a failing primitive aborts the call, runs the cleanup macro in
  scope, and surfaces the primitive's status.
-/

/-- Return status of a GraphBLAS call, restricted to the codes relevant to
LAGraph_tricount.  Failure constructors stand for genuine errors (the code
treats them all alike). -/
inductive GrB_Info : Type where
  | GrB_SUCCESS : GrB_Info
  | GrB_INVALID_VALUE : GrB_Info
  | GrB_OUT_OF_MEMORY : GrB_Info
  | GrB_INVALID_OBJECT : GrB_Info
  | GrB_DIMENSION_MISMATCH : GrB_Info
deriving DecidableEq

open GrB_Info

/-- The structure of an n-by-n sparse boolean matrix: presence of entries. -/
abbrev BMat (n : Nat) := Fin n → Fin n → Bool

/-- A triple of indices, used to enumerate the contributions of the masked
matrix product. -/
abbrev T3 (n : Nat) := Fin n × Fin n × Fin n

/-- The input matrix is symmetric (the precondition of LAGraph_tricount). -/
abbrev IsSymmetric {n : Nat} (A : BMat n) : Prop := ∀ i j, A i j = A j i

/-- The input matrix has no diagonal entries (no self-edges). -/
abbrev NoSelfEdges {n : Nat} (A : BMat n) : Prop := ∀ i, A i i = false

/-- GxB_select with GxB_TRIL and integer thunk k: keep entry (i,j) when
j - i <= k. -/
def tril {n : Nat} (A : BMat n) (k : Int) : BMat n :=
  fun i j => A i j && decide ((j.val : Int) - (i.val : Int) ≤ k)

/-- GxB_select with GxB_TRIU and integer thunk k: keep entry (i,j) when
j - i >= k. -/
def triu {n : Nat} (A : BMat n) (k : Int) : BMat n :=
  fun i j => A i j && decide ((j.val : Int) - (i.val : Int) ≥ k)

/-- Reading a structure transposed (the effect of GrB_DESC_ST1 on the second
multiplication input). -/
def transposeB {n : Nat} (M : BMat n) : BMat n := fun i j => M j i

/-- The GxB_select branch of tricount_prep: L = tril (A,-1) when requested,
U = triu (A,1) when requested (a NULL output pointer becomes none). -/
def tricount_prep_select (wantL wantU : Bool) {n : Nat} (A : BMat n) :
    Option (BMat n) × Option (BMat n) :=
  ((if wantL then some (tril A (-1)) else none),
   (if wantU then some (triu A 1) else none))

/-- The extractTuples performed by the fallback branch of tricount_prep:
all present entries (i,j) of A, row by row. -/
def extractTuples {n : Nat} (A : BMat n) : List (Fin n × Fin n) :=
  (List.finRange n).flatMap
    (fun i => ((List.finRange n).filter (fun j => A i j)).map (fun j => (i, j)))

/-- The filtering loop of the fallback branch: keep tuple k when
I [k] > J [k]. -/
def keepLower {n : Nat} (A : BMat n) : List (Fin n × Fin n) :=
  (extractTuples A).filter (fun p => decide (p.2 < p.1))

/-- The extractTuples/filter/build fallback branch of tricount_prep: L is
built from the kept tuples (I,J), U from the swapped tuples (J,I); the
GrB_LOR duplicate policy makes an entry present exactly when some kept tuple
names its position. -/
def tricount_prep_extract (wantL wantU : Bool) {n : Nat} (A : BMat n) :
    Option (BMat n) × Option (BMat n) :=
  if wantL || wantU then
    ((if wantL then some (fun i j => decide ((i, j) ∈ keepLower A)) else none),
     (if wantU then some (fun i j => decide ((j, i) ∈ keepLower A)) else none))
  else (none, none)

/-- Which of the structures A, L, U a switch case passes to GrB_mxm. -/
inductive MatName : Type where
  | MA : MatName
  | ML : MatName
  | MU : MatName
deriving DecidableEq

/-- The arguments of the one GrB_mxm call of a switch case: the mask, the
two inputs, and whether the descriptor is desc_st1 (GrB_DESC_ST1, which
reads the second input transposed) rather than desc_s (GrB_DESC_S). -/
structure MxmCall : Type where
  mask : MatName
  inp0 : MatName
  inp1 : MatName
  tranInp1 : Bool
deriving DecidableEq

/-- The GrB_mxm call of each of the six switch cases of LAGraph_tricount;
none for the default (invalid method) case. -/
def methodCall (method : Int) : Option MxmCall :=
  if method = 1 then some { mask := .MA, inp0 := .MA, inp1 := .MA, tranInp1 := false }
  else if method = 2 then some { mask := .MA, inp0 := .ML, inp1 := .MU, tranInp1 := false }
  else if method = 3 then some { mask := .ML, inp0 := .ML, inp1 := .ML, tranInp1 := false }
  else if method = 4 then some { mask := .MU, inp0 := .MU, inp1 := .MU, tranInp1 := false }
  else if method = 5 then some { mask := .ML, inp0 := .ML, inp1 := .MU, tranInp1 := true }
  else if method = 6 then some { mask := .MU, inp0 := .MU, inp1 := .ML, tranInp1 := true }
  else none

/-- Whether a method's GrB_mxm uses the transpose-second-input descriptor. -/
def usesTranInp1 (method : Int) : Bool :=
  match methodCall method with
  | some c => c.tranInp1
  | none => false

/-- Resolve a matrix name against the input A, with L and U produced by
tricount_prep. -/
def resolveMat {n : Nat} (A : BMat n) : MatName → BMat n
  | .MA => A
  | .ML => tril A (-1)
  | .MU => triu A 1

/-- The dot-product count: with the PLUS_PAIR_INT64 semiring the product
entry at (i,j) holds the number of indices k contributing a pair. -/
def dotCount {n : Nat} (B1 B2 : BMat n) (i j : Fin n) : Nat :=
  (Finset.univ.filter (fun k => B1 i k && B2 k j)).card

/-- The masked GrB_mxm: C holds, at each position of the mask's structure,
the number of contributing products (0 encodes an absent entry). -/
def mxmMasked {n : Nat} (mask B1 B2 : BMat n) : Fin n → Fin n → Nat :=
  fun i j => if mask i j then dotCount B1 B2 i j else 0

/-- GrB_reduce of the product matrix to a scalar with the PLUS_INT64
monoid. -/
def reduceAll {n : Nat} (C : Fin n → Fin n → Nat) : Nat :=
  ∑ i, ∑ j, C i j

/-- The masked multiply followed by the full reduction. -/
def mxmReduce {n : Nat} (mask B1 B2 : BMat n) : Nat :=
  reduceAll (mxmMasked mask B1 B2)

/-- The raw (pre-division) reduction value computed by a switch case. -/
def rawReduction (method : Int) {n : Nat} (A : BMat n) : Nat :=
  match methodCall method with
  | some c =>
      mxmReduce (resolveMat A c.mask) (resolveMat A c.inp0)
        (if c.tranInp1 then transposeB (resolveMat A c.inp1)
         else resolveMat A c.inp1)
  | none => 0

/-- The normalizing divisor applied after the reduction: 6 for method 1,
2 for method 2, nothing (divisor 1) for methods 3 to 6. -/
def divisor (method : Int) : Nat :=
  if method = 1 then 6 else if method = 2 then 2 else 1

/-- Value-level semantics of LAGraph_tricount: on a valid method the call
succeeds and the output ntri receives the divided reduction value; on an
invalid method the call returns GrB_INVALID_VALUE and ntri is not set. -/
def LAGraph_tricount (method : Int) {n : Nat} (A : BMat n) :
    GrB_Info × Option Nat :=
  match methodCall method with
  | some _ => (GrB_SUCCESS, some (rawReduction method A / divisor method))
  | none => (GrB_INVALID_VALUE, none)

/-- The canonical description of a triangle: an index triple (a,b,c) with
a < b < c whose three sides are present. -/
def canonP {n : Nat} (A : BMat n) (t : T3 n) : Bool :=
  decide (t.1 < t.2.1) && decide (t.2.1 < t.2.2) &&
    A t.1 t.2.1 && A t.1 t.2.2 && A t.2.1 t.2.2

/-- The set of triangles of A, one canonical triple per triangle. -/
def triangleTriples {n : Nat} (A : BMat n) : Finset (T3 n) :=
  Finset.univ.filter (fun t => canonP A t = true)

/-- The true number of triangles of A. -/
def triangleCount {n : Nat} (A : BMat n) : Nat := (triangleTriples A).card

/-- The complete graph structure on n nodes: every off-diagonal entry. -/
def completeB (n : Nat) : BMat n := fun i j => decide (i ≠ j)

/-- A's structure with its diagonal entries removed. -/
def removeDiag {n : Nat} (A : BMat n) : BMat n :=
  fun i j => if i = j then false else A i j

/-- A 3-node fixture: the triangle on nodes 0,1,2 plus one self-edge at
node 0. -/
def loopTriangle : BMat 3 :=
  fun i j => decide (i ≠ j) || (decide (i.val = 0) && decide (j.val = 0))

/-- Resource-trace state of one LAGraph_tricount call: which GrB objects are
currently live, how many object allocations happened, how many multiplies and
reductions ran, and whether the output ntri has been written. -/
structure TState : Type where
  liveC : Bool
  liveL : Bool
  liveU : Bool
  liveThunk : Bool
  allocs : Nat
  mxms : Nat
  reduces : Nat
  ntriSet : Bool
deriving DecidableEq

/-- The state at the start of a call: nothing allocated, nothing written. -/
def initState : TState :=
  { liveC := false, liveL := false, liveU := false, liveThunk := false,
    allocs := 0, mxms := 0, reduces := 0, ntriSet := false }

/-- The LAGRAPH_FREE_ALL macro in scope in LAGraph_tricount: frees C, L, U. -/
def freeMain (st : TState) : TState :=
  { st with liveC := false, liveL := false, liveU := false }

/-- The LAGRAPH_FREE_ALL macro in scope in tricount_prep: frees the thunk
scalar and the two output matrices. -/
def freePrep (st : TState) : TState :=
  { st with liveThunk := false, liveL := false, liveU := false }

/-- Cleanup run when a primitive inside tricount_prep fails: tricount_prep's
own LAGRAPH_FREE_ALL runs, the failing status propagates to the
LAGRAPH_OK wrapper at the call site in LAGraph_tricount, and the caller's
LAGRAPH_FREE_ALL runs as well. -/
def prepClean (st : TState) : TState := freeMain (freePrep st)

/-- One fallible GraphBLAS primitive call: its state effect on success, and
the cleanup applied to the pre-call state when it fails.  Modelled from the
spec: a failing primitive aborts the call, the cleanup macro in scope runs,
and the failing status is surfaced unchanged (the LAGr_* checking wrappers
of LAGraph_internal.h, which is not part of this tree). -/
structure PrimOp : Type where
  effect : TState → TState
  cleanup : TState → TState

/-- GrB_Matrix_nrows in LAGraph_tricount. -/
def nrowsOp : PrimOp := { effect := fun st => st, cleanup := freeMain }

/-- GrB_Matrix_new for the product matrix C. -/
def newCOp : PrimOp :=
  { effect := fun st => { st with liveC := true, allocs := st.allocs + 1 },
    cleanup := freeMain }

/-- GrB_Matrix_nrows in tricount_prep. -/
def prepNrowsOp : PrimOp := { effect := fun st => st, cleanup := prepClean }

/-- GxB_Scalar_new for the thunk in tricount_prep. -/
def scalarNewOp : PrimOp :=
  { effect := fun st => { st with liveThunk := true, allocs := st.allocs + 1 },
    cleanup := prepClean }

/-- GrB_Matrix_new for L in tricount_prep. -/
def newLOp : PrimOp :=
  { effect := fun st => { st with liveL := true, allocs := st.allocs + 1 },
    cleanup := prepClean }

/-- GxB_Scalar_setElement before building L. -/
def setLOp : PrimOp := { effect := fun st => st, cleanup := prepClean }

/-- GxB_select with GxB_TRIL writing into L. -/
def selLOp : PrimOp := { effect := fun st => st, cleanup := prepClean }

/-- GrB_Matrix_new for U in tricount_prep. -/
def newUOp : PrimOp :=
  { effect := fun st => { st with liveU := true, allocs := st.allocs + 1 },
    cleanup := prepClean }

/-- GxB_Scalar_setElement before building U. -/
def setUOp : PrimOp := { effect := fun st => st, cleanup := prepClean }

/-- GxB_select with GxB_TRIU writing into U. -/
def selUOp : PrimOp := { effect := fun st => st, cleanup := prepClean }

/-- GrB_free of the thunk at the end of tricount_prep. -/
def freeThunkOp : PrimOp :=
  { effect := fun st => { st with liveThunk := false }, cleanup := prepClean }

/-- The masked GrB_mxm of a switch case. -/
def mxmOp : PrimOp :=
  { effect := fun st => { st with mxms := st.mxms + 1 }, cleanup := freeMain }

/-- The GrB_reduce of a switch case: on success it writes the output ntri. -/
def reduceOp : PrimOp :=
  { effect := fun st => { st with reduces := st.reduces + 1, ntriSet := true },
    cleanup := freeMain }

/-- The primitive calls of tricount_prep, in source order: nrows, scalar
allocation, the L block when requested, the U block when requested, the
final free of the thunk. -/
def prepOps (wantL wantU : Bool) : List PrimOp :=
  [prepNrowsOp, scalarNewOp]
    ++ (if wantL then [newLOp, setLOp, selLOp] else [])
    ++ (if wantU then [newUOp, setUOp, selUOp] else [])
    ++ [freeThunkOp]

/-- The two primitive calls before the switch statement: GrB_Matrix_nrows
and GrB_Matrix_new for C. -/
def headerOps : List PrimOp := [nrowsOp, newCOp]

/-- The primitive calls of each switch case, in source order. -/
def bodyOps (method : Int) : List PrimOp :=
  if method = 1 then [mxmOp] ++ [reduceOp]
  else if method = 2 then (prepOps true true ++ [mxmOp]) ++ [reduceOp]
  else if method = 3 then (prepOps true false ++ [mxmOp]) ++ [reduceOp]
  else if method = 4 then (prepOps false true ++ [mxmOp]) ++ [reduceOp]
  else if method = 5 then (prepOps true true ++ [mxmOp]) ++ [reduceOp]
  else if method = 6 then (prepOps true true ++ [mxmOp]) ++ [reduceOp]
  else []

/-- Whether the switch has a case for this method value. -/
def validMethod (method : Int) : Bool :=
  decide (1 ≤ method) && decide (method ≤ 6)

/-- Run a sequence of fallible primitives.  The oracle says whether the
primitive issued as call number k fails and with which status; on the first
failure the failing primitive's cleanup runs on the pre-call state and the
status is returned. -/
def runOps (oracle : Nat → Option GrB_Info) :
    Nat → List PrimOp → TState → Nat × TState × Option GrB_Info
  | k, [], st => (k, st, none)
  | k, op :: rest, st =>
      match oracle k with
      | some e => (k, op.cleanup st, some e)
      | none => runOps oracle (k + 1) rest (op.effect st)

/-- Resource-trace semantics of one LAGraph_tricount call: the two header
primitives run first, then the switch either dispatches to a case (whose
primitives run, followed on success by LAGRAPH_FREE_ALL and GrB_SUCCESS) or,
for an out-of-range method, returns GrB_INVALID_VALUE immediately, without
running the cleanup macro. -/
def tricount_trace (oracle : Nat → Option GrB_Info) (method : Int) :
    GrB_Info × TState :=
  match runOps oracle 0 headerOps initState with
  | (_, st, some e) => (e, st)
  | (k, st, none) =>
      if validMethod method then
        match runOps oracle k (bodyOps method) st with
        | (_, st2, some e) => (e, st2)
        | (_, st2, none) => (GrB_SUCCESS, freeMain st2)
      else (GrB_INVALID_VALUE, st)

/-- An oracle under which every primitive succeeds. -/
def okOracle : Nat → Option GrB_Info := fun _ => none

/-- An oracle under which the third primitive call (call number 2, the first
primitive of the switch body) fails with out-of-memory. -/
def oomOracle : Nat → Option GrB_Info :=
  fun k => if k = 2 then some GrB_OUT_OF_MEMORY else none

/-- Two booleans are equal when they are equivalent as propositions. -/
theorem bool_eq_of_iff {a b : Bool} (h : a = true ↔ b = true) : a = b := by
  cases a <;> cases b <;> simp_all

/-- Pointwise form of L = tril (A,-1): entry (i,j) present when A has it and
j < i. -/
theorem tril_apply {n : Nat} (A : BMat n) (i j : Fin n) :
    tril A (-1) i j = (A i j && decide (j.val < i.val)) := by
  unfold tril
  congr 1
  rw [decide_eq_decide]
  omega

/-- Pointwise form of U = triu (A,1): entry (i,j) present when A has it and
i < j. -/
theorem triu_apply {n : Nat} (A : BMat n) (i j : Fin n) :
    triu A 1 i j = (A i j && decide (i.val < j.val)) := by
  unfold triu
  congr 1
  rw [decide_eq_decide]
  omega

/-- On a symmetric input, reading U transposed yields exactly L. -/
theorem transposeB_triu {n : Nat} (A : BMat n) (hSym : IsSymmetric A) :
    transposeB (triu A 1) = tril A (-1) := by
  funext i j
  rw [transposeB, triu_apply, tril_apply, hSym j i]

/-- On a symmetric input, reading L transposed yields exactly U. -/
theorem transposeB_tril {n : Nat} (A : BMat n) (hSym : IsSymmetric A) :
    transposeB (tril A (-1)) = triu A 1 := by
  funext i j
  rw [transposeB, tril_apply, triu_apply, hSym j i]

/-- A present entry never joins equal indices when the diagonal is empty. -/
theorem edge_ne {n : Nat} {A : BMat n} (hDiag : NoSelfEdges A) {i j : Fin n}
    (h : A i j = true) : i.val ≠ j.val := by
  intro hv
  have hij : i = j := Fin.ext hv
  rw [hij, hDiag j] at h
  exact Bool.false_ne_true h

/-- The masked multiply-reduce counts the triples (i,j,k) with (i,j) in the
mask, (i,k) in the first input and (k,j) in the second. -/
theorem mxmReduce_eq_card {n : Nat} (mask B1 B2 : BMat n) :
    mxmReduce mask B1 B2 =
      (Finset.univ.filter
        (fun t : T3 n =>
          (mask t.1 t.2.1 && B1 t.1 t.2.2 && B2 t.2.2 t.2.1) = true)).card := by
  rw [Finset.card_filter, Fintype.sum_prod_type]
  unfold mxmReduce reduceAll mxmMasked
  refine Finset.sum_congr rfl fun i _ => ?_
  rw [Fintype.sum_prod_type]
  refine Finset.sum_congr rfl fun j _ => ?_
  by_cases h : mask i j = true
  · simp only [h, if_true]
    rw [dotCount, Finset.card_filter]
    refine Finset.sum_congr rfl fun k _ => ?_
    simp [h, Bool.and_assoc]
  · simp [h, Bool.eq_false_iff.mpr h]

/-- Relabelling the enumeration triples along a permutation preserves the
count. -/
theorem card_filter_equiv {α : Type} [Fintype α] [DecidableEq α]
    (e : Equiv.Perm α) (P : α → Prop) [DecidablePred P] :
    (Finset.univ.filter (fun t => P (e t))).card =
      (Finset.univ.filter P).card := by
  refine Finset.card_equiv e fun t => ?_
  simp

/-- The identity relabelling of triples. -/
def permId (n : Nat) : Equiv.Perm (T3 n) := Equiv.refl (T3 n)

/-- Triple relabelling (i,j,k) to (j,k,i). -/
def permRotL (n : Nat) : Equiv.Perm (T3 n) where
  toFun t := (t.2.1, t.2.2, t.1)
  invFun t := (t.2.2, t.1, t.2.1)
  left_inv := fun _ => rfl
  right_inv := fun _ => rfl

/-- Triple relabelling (i,j,k) to (k,i,j). -/
def permRotR (n : Nat) : Equiv.Perm (T3 n) where
  toFun t := (t.2.2, t.1, t.2.1)
  invFun t := (t.2.1, t.2.2, t.1)
  left_inv := fun _ => rfl
  right_inv := fun _ => rfl

/-- Triple relabelling (i,j,k) to (j,i,k). -/
def permSwap12 (n : Nat) : Equiv.Perm (T3 n) where
  toFun t := (t.2.1, t.1, t.2.2)
  invFun t := (t.2.1, t.1, t.2.2)
  left_inv := fun _ => rfl
  right_inv := fun _ => rfl

/-- Triple relabelling (i,j,k) to (k,j,i). -/
def permSwap13 (n : Nat) : Equiv.Perm (T3 n) where
  toFun t := (t.2.2, t.2.1, t.1)
  invFun t := (t.2.2, t.2.1, t.1)
  left_inv := fun _ => rfl
  right_inv := fun _ => rfl

/-- Triple relabelling (i,j,k) to (i,k,j). -/
def permSwap23 (n : Nat) : Equiv.Perm (T3 n) where
  toFun t := (t.1, t.2.2, t.2.1)
  invFun t := (t.1, t.2.2, t.2.1)
  left_inv := fun _ => rfl
  right_inv := fun _ => rfl

/-- A family of enumeration triples that is, up to a fixed relabelling, the
canonical triangle family has the triangle count as its cardinality. -/
theorem card_leaf {n : Nat} (A : BMat n) (e : Equiv.Perm (T3 n))
    (P : T3 n → Prop) [DecidablePred P]
    (hP : ∀ t, P t ↔ canonP A (e t) = true) :
    (Finset.univ.filter P).card = triangleCount A := by
  have h1 : Finset.univ.filter P =
      Finset.univ.filter (fun t => canonP A (e t) = true) :=
    Finset.filter_congr fun t _ => by rw [hP]
  rw [h1, triangleCount, triangleTriples]
  exact card_filter_equiv e (fun t => canonP A t = true)

/-- Splitting a filtered count along a second predicate. -/
theorem card_split {α : Type} [Fintype α] (p q : α → Prop)
    [DecidablePred p] [DecidablePred q] :
    (Finset.univ.filter p).card =
      (Finset.univ.filter (fun a => p a ∧ q a)).card +
        (Finset.univ.filter (fun a => p a ∧ ¬ q a)).card := by
  rw [← Finset.filter_filter, ← Finset.filter_filter,
    Finset.filter_card_add_filter_neg_card_eq_card]

/-- Method 3 (Sandia): the reduction of (L*L) masked by L is exactly the
triangle count. -/
theorem raw_method3 {n : Nat} (A : BMat n) (hSym : IsSymmetric A) :
    mxmReduce (tril A (-1)) (tril A (-1)) (tril A (-1)) = triangleCount A := by
  rw [mxmReduce_eq_card]
  refine card_leaf A (permRotL n) _ ?_
  rintro ⟨i, j, k⟩
  simp only [permRotL, Equiv.coe_fn_mk, canonP, tril_apply]
  rw [hSym j k, hSym j i, hSym k i]
  simp only [Bool.and_eq_true, decide_eq_true_eq, Fin.lt_def, and_assoc]
  constructor
  · rintro ⟨h1, h2, h3, h4, h5, h6⟩
    exact ⟨h6, h4, h5, h1, h3⟩
  · rintro ⟨h1, h2, h3, h4, h5⟩
    exact ⟨h4, by omega, h5, h2, h3, h1⟩

/-- Method 4 (Sandia2): the reduction of (U*U) masked by U is exactly the
triangle count. -/
theorem raw_method4 {n : Nat} (A : BMat n) :
    mxmReduce (triu A 1) (triu A 1) (triu A 1) = triangleCount A := by
  rw [mxmReduce_eq_card]
  refine card_leaf A (permSwap23 n) _ ?_
  rintro ⟨i, j, k⟩
  simp only [permSwap23, Equiv.coe_fn_mk, canonP, triu_apply]
  simp only [Bool.and_eq_true, decide_eq_true_eq, Fin.lt_def, and_assoc]
  constructor
  · rintro ⟨h1, h2, h3, h4, h5, h6⟩
    exact ⟨h4, h6, h3, h1, h5⟩
  · rintro ⟨h1, h2, h3, h4, h5⟩
    exact ⟨h4, by omega, h3, h1, h5, h2⟩

/-- Method 5 (SandiaDot): with the second input read transposed, the
reduction of (L*U.T) masked by L is exactly the triangle count. -/
theorem raw_method5 {n : Nat} (A : BMat n) (hSym : IsSymmetric A) :
    mxmReduce (tril A (-1)) (tril A (-1)) (transposeB (triu A 1)) =
      triangleCount A := by
  rw [transposeB_triu A hSym]
  exact raw_method3 A hSym

/-- Method 6 (SandiaDot2): with the second input read transposed, the
reduction of (U*L.T) masked by U is exactly the triangle count. -/
theorem raw_method6 {n : Nat} (A : BMat n) (hSym : IsSymmetric A) :
    mxmReduce (triu A 1) (triu A 1) (transposeB (tril A (-1))) =
      triangleCount A := by
  rw [transposeB_tril A hSym]
  exact raw_method4 A

/-- Method 2 (Cohen): the reduction of (L*U) masked by A is exactly twice
the triangle count. -/
theorem raw_method2 {n : Nat} (A : BMat n) (hSym : IsSymmetric A)
    (hDiag : NoSelfEdges A) :
    mxmReduce A (tril A (-1)) (triu A 1) = 2 * triangleCount A := by
  rw [mxmReduce_eq_card]
  rw [card_split
    (fun t : T3 n =>
      (A t.1 t.2.1 && tril A (-1) t.1 t.2.2 && triu A 1 t.2.2 t.2.1) = true)
    (fun t : T3 n => t.1 < t.2.1)]
  have hA : (Finset.univ.filter
      (fun t : T3 n =>
        ((A t.1 t.2.1 && tril A (-1) t.1 t.2.2 && triu A 1 t.2.2 t.2.1) = true)
          ∧ t.1 < t.2.1)).card = triangleCount A := by
    refine card_leaf A (permRotR n) _ ?_
    rintro ⟨i, j, k⟩
    simp only [permRotR, Equiv.coe_fn_mk, canonP, tril_apply, triu_apply]
    rw [hSym k i]
    simp only [Bool.and_eq_true, decide_eq_true_eq, Fin.lt_def, and_assoc]
    constructor
    · rintro ⟨h1, h2, h3, h4, h5, h6⟩
      exact ⟨h3, h6, h2, h4, h1⟩
    · rintro ⟨h1, h2, h3, h4, h5⟩
      exact ⟨h5, h3, h1, h4, by omega, h2⟩
  have hB : (Finset.univ.filter
      (fun t : T3 n =>
        ((A t.1 t.2.1 && tril A (-1) t.1 t.2.2 && triu A 1 t.2.2 t.2.1) = true)
          ∧ ¬ t.1 < t.2.1)).card = triangleCount A := by
    refine card_leaf A (permSwap13 n) _ ?_
    rintro ⟨i, j, k⟩
    simp only [permSwap13, Equiv.coe_fn_mk, canonP, tril_apply, triu_apply]
    rw [hSym k i, hSym j i]
    simp only [Bool.and_eq_true, decide_eq_true_eq, Fin.lt_def, and_assoc]
    constructor
    · rintro ⟨h1, h2, h3, h4, h5, h6⟩
      have hne := edge_ne hDiag h1
      exact ⟨h5, by omega, h4, h2, h1⟩
    · rintro ⟨h1, h2, h3, h4, h5⟩
      exact ⟨h5, h4, by omega, h3, h1, by omega⟩
  rw [hA, hB]
  omega

/-- The contribution predicate of method 1: (i,j) in the mask A and the two
product inputs (both A) present. -/
abbrev m1P {n : Nat} (A : BMat n) (t : T3 n) : Prop :=
  (A t.1 t.2.1 && A t.1 t.2.2 && A t.2.2 t.2.1) = true

/-- Method 1 (Burkhardt): the reduction of (A*A) masked by A is exactly six
times the triangle count. -/
theorem raw_method1 {n : Nat} (A : BMat n) (hSym : IsSymmetric A)
    (hDiag : NoSelfEdges A) :
    mxmReduce A A A = 6 * triangleCount A := by
  rw [mxmReduce_eq_card]
  have e0 : (Finset.univ.filter
      (fun t : T3 n =>
        (A t.1 t.2.1 && A t.1 t.2.2 && A t.2.2 t.2.1) = true)).card =
      (Finset.univ.filter (fun t : T3 n => m1P A t ∧ t.1 < t.2.1)).card +
      (Finset.univ.filter (fun t : T3 n => m1P A t ∧ ¬ t.1 < t.2.1)).card :=
    card_split _ _
  have e1 : (Finset.univ.filter (fun t : T3 n => m1P A t ∧ t.1 < t.2.1)).card =
      (Finset.univ.filter
        (fun t : T3 n => (m1P A t ∧ t.1 < t.2.1) ∧ t.2.2 < t.1)).card +
      (Finset.univ.filter
        (fun t : T3 n => (m1P A t ∧ t.1 < t.2.1) ∧ ¬ t.2.2 < t.1)).card :=
    card_split _ _
  have e2 : (Finset.univ.filter
      (fun t : T3 n => (m1P A t ∧ t.1 < t.2.1) ∧ ¬ t.2.2 < t.1)).card =
      (Finset.univ.filter
        (fun t : T3 n =>
          ((m1P A t ∧ t.1 < t.2.1) ∧ ¬ t.2.2 < t.1) ∧ t.2.2 < t.2.1)).card +
      (Finset.univ.filter
        (fun t : T3 n =>
          ((m1P A t ∧ t.1 < t.2.1) ∧ ¬ t.2.2 < t.1) ∧ ¬ t.2.2 < t.2.1)).card :=
    card_split _ _
  have e3 : (Finset.univ.filter (fun t : T3 n => m1P A t ∧ ¬ t.1 < t.2.1)).card =
      (Finset.univ.filter
        (fun t : T3 n => (m1P A t ∧ ¬ t.1 < t.2.1) ∧ t.2.2 < t.2.1)).card +
      (Finset.univ.filter
        (fun t : T3 n => (m1P A t ∧ ¬ t.1 < t.2.1) ∧ ¬ t.2.2 < t.2.1)).card :=
    card_split _ _
  have e4 : (Finset.univ.filter
      (fun t : T3 n => (m1P A t ∧ ¬ t.1 < t.2.1) ∧ ¬ t.2.2 < t.2.1)).card =
      (Finset.univ.filter
        (fun t : T3 n =>
          ((m1P A t ∧ ¬ t.1 < t.2.1) ∧ ¬ t.2.2 < t.2.1) ∧ t.2.2 < t.1)).card +
      (Finset.univ.filter
        (fun t : T3 n =>
          ((m1P A t ∧ ¬ t.1 < t.2.1) ∧ ¬ t.2.2 < t.2.1) ∧ ¬ t.2.2 < t.1)).card :=
    card_split _ _
  have l1 : (Finset.univ.filter
      (fun t : T3 n => (m1P A t ∧ t.1 < t.2.1) ∧ t.2.2 < t.1)).card =
      triangleCount A := by
    refine card_leaf A (permRotR n) _ ?_
    rintro ⟨i, j, k⟩
    simp only [permRotR, Equiv.coe_fn_mk, canonP, m1P]
    rw [hSym k i]
    simp only [Bool.and_eq_true, decide_eq_true_eq, Fin.lt_def, and_assoc]
    constructor
    · rintro ⟨h1, h2, h3, h4, h5⟩
      exact ⟨h5, h4, h2, h3, h1⟩
    · rintro ⟨g1, g2, g3, g4, g5⟩
      exact ⟨g5, g3, g4, g2, g1⟩
  have l2 : (Finset.univ.filter
      (fun t : T3 n =>
        ((m1P A t ∧ t.1 < t.2.1) ∧ ¬ t.2.2 < t.1) ∧ t.2.2 < t.2.1)).card =
      triangleCount A := by
    refine card_leaf A (permSwap23 n) _ ?_
    rintro ⟨i, j, k⟩
    simp only [permSwap23, Equiv.coe_fn_mk, canonP, m1P]
    simp only [Bool.and_eq_true, decide_eq_true_eq, Fin.lt_def, and_assoc]
    constructor
    · rintro ⟨h1, h2, h3, h4, h5, h6⟩
      have hne := edge_ne hDiag h2
      exact ⟨by omega, h6, h2, h1, h3⟩
    · rintro ⟨g1, g2, g3, g4, g5⟩
      exact ⟨g4, g3, g5, by omega, by omega, g2⟩
  have l3 : (Finset.univ.filter
      (fun t : T3 n =>
        ((m1P A t ∧ t.1 < t.2.1) ∧ ¬ t.2.2 < t.1) ∧ ¬ t.2.2 < t.2.1)).card =
      triangleCount A := by
    refine card_leaf A (permId n) _ ?_
    rintro ⟨i, j, k⟩
    simp only [permId, Equiv.refl_apply, canonP, m1P]
    rw [hSym k j]
    simp only [Bool.and_eq_true, decide_eq_true_eq, Fin.lt_def, and_assoc]
    constructor
    · rintro ⟨h1, h2, h3, h4, h5, h6⟩
      have hne := edge_ne hDiag h3
      exact ⟨h4, by omega, h1, h2, h3⟩
    · rintro ⟨g1, g2, g3, g4, g5⟩
      exact ⟨g3, g4, g5, g1, by omega, by omega⟩
  have l4 : (Finset.univ.filter
      (fun t : T3 n => (m1P A t ∧ ¬ t.1 < t.2.1) ∧ t.2.2 < t.2.1)).card =
      triangleCount A := by
    refine card_leaf A (permSwap13 n) _ ?_
    rintro ⟨i, j, k⟩
    simp only [permSwap13, Equiv.coe_fn_mk, canonP, m1P]
    rw [hSym k i, hSym j i]
    simp only [Bool.and_eq_true, decide_eq_true_eq, Fin.lt_def, and_assoc]
    constructor
    · rintro ⟨h1, h2, h3, h4, h5⟩
      have hne := edge_ne hDiag h1
      exact ⟨h5, by omega, h3, h2, h1⟩
    · rintro ⟨g1, g2, g3, g4, g5⟩
      exact ⟨g5, g4, g3, by omega, g1⟩
  have l5 : (Finset.univ.filter
      (fun t : T3 n =>
        ((m1P A t ∧ ¬ t.1 < t.2.1) ∧ ¬ t.2.2 < t.2.1) ∧ t.2.2 < t.1)).card =
      triangleCount A := by
    refine card_leaf A (permRotL n) _ ?_
    rintro ⟨i, j, k⟩
    simp only [permRotL, Equiv.coe_fn_mk, canonP, m1P]
    rw [hSym j k, hSym j i, hSym k i]
    simp only [Bool.and_eq_true, decide_eq_true_eq, Fin.lt_def, and_assoc]
    constructor
    · rintro ⟨h1, h2, h3, h4, h5, h6⟩
      have hne := edge_ne hDiag h3
      exact ⟨by omega, h6, h3, h1, h2⟩
    · rintro ⟨g1, g2, g3, g4, g5⟩
      exact ⟨g4, g5, g3, by omega, by omega, g2⟩
  have l6 : (Finset.univ.filter
      (fun t : T3 n =>
        ((m1P A t ∧ ¬ t.1 < t.2.1) ∧ ¬ t.2.2 < t.2.1) ∧ ¬ t.2.2 < t.1)).card =
      triangleCount A := by
    refine card_leaf A (permSwap12 n) _ ?_
    rintro ⟨i, j, k⟩
    simp only [permSwap12, Equiv.coe_fn_mk, canonP, m1P]
    rw [hSym j i, hSym j k]
    simp only [Bool.and_eq_true, decide_eq_true_eq, Fin.lt_def, and_assoc]
    constructor
    · rintro ⟨h1, h2, h3, h4, h5, h6⟩
      have hne1 := edge_ne hDiag h1
      have hne2 := edge_ne hDiag h2
      exact ⟨by omega, by omega, h1, h3, h2⟩
    · rintro ⟨g1, g2, g3, g4, g5⟩
      exact ⟨g3, g5, g4, by omega, by omega, by omega⟩
  omega
theorem range_filter_lt (n c : Nat) (h : c ≤ n) :
    (Finset.range n).filter (fun b => b < c) = Finset.range c := by
  ext b
  simp only [Finset.mem_filter, Finset.mem_range]
  omega

theorem sum_range_if_lt (n b : Nat) (hb : b ≤ n) :
    (∑ a in Finset.range n, if a < b then (1:ℕ) else 0) = b := by
  rw [← Finset.card_filter, range_filter_lt n b hb, Finset.card_range]

theorem sum_range_id_eq_choose (c : Nat) :
    (∑ b in Finset.range c, b) = c.choose 2 := by
  have h := Finset.sum_range_id_mul_two c
  rw [Nat.choose_two_right]
  generalize hP : c * (c - 1) = P at h ⊢
  omega

theorem sum_range_choose_two (n : Nat) :
    (∑ c in Finset.range n, c.choose 2) = n.choose 3 := by
  induction n with
  | zero => simp
  | succ m ih =>
      rw [Finset.sum_range_succ, ih]
      have h := Nat.choose_succ_succ m 2
      norm_num at h
      omega

theorem choose_three_formula (n : Nat) :
    n.choose 3 = n * (n - 1) * (n - 2) / 6 := by
  rw [Nat.choose_eq_descFactorial_div_factorial]
  have h1 : n.descFactorial 3 = n * (n - 1) * (n - 2) := by
    simp [Nat.descFactorial_succ, Nat.descFactorial_zero]
    ring
  have h2 : Nat.factorial 3 = 6 := rfl
  rw [h1, h2]

theorem triple_sum_lt (n : Nat) :
    (∑ a in Finset.range n, ∑ b in Finset.range n, ∑ c in Finset.range n,
        if a < b ∧ b < c then (1:ℕ) else 0) = n.choose 3 := by
  calc (∑ a in Finset.range n, ∑ b in Finset.range n, ∑ c in Finset.range n,
          if a < b ∧ b < c then (1:ℕ) else 0)
      = ∑ b in Finset.range n, ∑ a in Finset.range n, ∑ c in Finset.range n,
          if a < b ∧ b < c then (1:ℕ) else 0 := Finset.sum_comm
    _ = ∑ b in Finset.range n, ∑ c in Finset.range n, ∑ a in Finset.range n,
          if a < b ∧ b < c then (1:ℕ) else 0 :=
        Finset.sum_congr rfl fun b _ => Finset.sum_comm
    _ = ∑ c in Finset.range n, ∑ b in Finset.range n, ∑ a in Finset.range n,
          if a < b ∧ b < c then (1:ℕ) else 0 := Finset.sum_comm
    _ = ∑ c in Finset.range n, ∑ b in Finset.range n,
          if b < c then b else 0 := by
        refine Finset.sum_congr rfl fun c _ => ?_
        refine Finset.sum_congr rfl fun b hb => ?_
        by_cases hbc : b < c
        · simp only [hbc, and_true]
          rw [sum_range_if_lt n b (le_of_lt (Finset.mem_range.mp hb))]
          simp [hbc]
        · simp [hbc]
    _ = ∑ c in Finset.range n, ∑ b in Finset.range c, b := by
        refine Finset.sum_congr rfl fun c hc => ?_
        rw [← Finset.sum_filter, range_filter_lt n c (le_of_lt (Finset.mem_range.mp hc))]
    _ = ∑ c in Finset.range n, c.choose 2 :=
        Finset.sum_congr rfl fun c _ => sum_range_id_eq_choose c
    _ = n.choose 3 := sum_range_choose_two n

/-- The canonical triangle triples of the complete graph are exactly the
strictly increasing index triples. -/
theorem complete_triples (n : Nat) :
    Finset.univ.filter (fun t : T3 n => canonP (completeB n) t = true) =
      Finset.univ.filter
        (fun t : T3 n => t.1.val < t.2.1.val ∧ t.2.1.val < t.2.2.val) := by
  refine Finset.filter_congr fun t _ => ?_
  rcases t with ⟨a, b, c⟩
  simp only [canonP, completeB, Bool.and_eq_true, decide_eq_true_eq,
    Fin.lt_def, Fin.ne_iff_vne, and_assoc, eq_iff_iff]
  constructor
  · rintro ⟨h1, h2, h3, h4, h5⟩
    exact ⟨h1, h2⟩
  · rintro ⟨h1, h2⟩
    exact ⟨h1, h2, by omega, by omega, by omega⟩

/-- Triangle count of the complete graph: n choose 3. -/
theorem triangleCount_complete (n : Nat) :
    triangleCount (completeB n) = n.choose 3 := by
  rw [triangleCount, triangleTriples, complete_triples]
  rw [Finset.card_filter]
  simp only [Fintype.sum_prod_type]
  have h1 : ∀ a b : Fin n,
      (∑ c : Fin n, if a.val < b.val ∧ b.val < c.val then (1:ℕ) else 0) =
      ∑ cv in Finset.range n,
        if a.val < b.val ∧ b.val < cv then (1:ℕ) else 0 :=
    fun a b => Fin.sum_univ_eq_sum_range
      (fun cv => if a.val < b.val ∧ b.val < cv then (1:ℕ) else 0) n
  have h2 : ∀ a : Fin n,
      (∑ b : Fin n, ∑ cv in Finset.range n,
        if a.val < b.val ∧ b.val < cv then (1:ℕ) else 0) =
      ∑ bv in Finset.range n, ∑ cv in Finset.range n,
        if a.val < bv ∧ bv < cv then (1:ℕ) else 0 :=
    fun a => Fin.sum_univ_eq_sum_range
      (fun bv => ∑ cv in Finset.range n,
        if a.val < bv ∧ bv < cv then (1:ℕ) else 0) n
  calc (∑ a : Fin n, ∑ b : Fin n, ∑ c : Fin n,
          if a.val < b.val ∧ b.val < c.val then (1:ℕ) else 0)
      = ∑ a : Fin n, ∑ bv in Finset.range n, ∑ cv in Finset.range n,
          if a.val < bv ∧ bv < cv then (1:ℕ) else 0 :=
        Finset.sum_congr rfl fun a _ => by
          rw [Finset.sum_congr rfl fun b _ => h1 a b]
          exact h2 a
    _ = ∑ av in Finset.range n, ∑ bv in Finset.range n,
          ∑ cv in Finset.range n,
          if av < bv ∧ bv < cv then (1:ℕ) else 0 :=
        Fin.sum_univ_eq_sum_range
          (fun av => ∑ bv in Finset.range n, ∑ cv in Finset.range n,
            if av < bv ∧ bv < cv then (1:ℕ) else 0) n
    _ = n.choose 3 := triple_sum_lt n

/-- Every valid method returns GrB_SUCCESS together with the exact triangle
count of a symmetric, self-edge-free input. -/
theorem tricount_correct (m : Int) {n : Nat} (A : BMat n)
    (hm1 : 1 ≤ m) (hm6 : m ≤ 6) (hSym : IsSymmetric A)
    (hDiag : NoSelfEdges A) :
    LAGraph_tricount m A = (GrB_SUCCESS, some (triangleCount A)) := by
  interval_cases m
  · show (GrB_SUCCESS, some (mxmReduce A A A / 6)) =
      (GrB_SUCCESS, some (triangleCount A))
    rw [raw_method1 A hSym hDiag, Nat.mul_div_cancel_left _ (by norm_num : 0 < 6)]
  · show (GrB_SUCCESS,
      some (mxmReduce A (tril A (-1)) (triu A 1) / 2)) =
      (GrB_SUCCESS, some (triangleCount A))
    rw [raw_method2 A hSym hDiag, Nat.mul_div_cancel_left _ (by norm_num : 0 < 2)]
  · show (GrB_SUCCESS,
      some (mxmReduce (tril A (-1)) (tril A (-1)) (tril A (-1)) / 1)) =
      (GrB_SUCCESS, some (triangleCount A))
    rw [raw_method3 A hSym, Nat.div_one]
  · show (GrB_SUCCESS,
      some (mxmReduce (triu A 1) (triu A 1) (triu A 1) / 1)) =
      (GrB_SUCCESS, some (triangleCount A))
    rw [raw_method4 A, Nat.div_one]
  · show (GrB_SUCCESS,
      some (mxmReduce (tril A (-1)) (tril A (-1)) (transposeB (triu A 1)) / 1)) =
      (GrB_SUCCESS, some (triangleCount A))
    rw [raw_method5 A hSym, Nat.div_one]
  · show (GrB_SUCCESS,
      some (mxmReduce (triu A 1) (triu A 1) (transposeB (tril A (-1))) / 1)) =
      (GrB_SUCCESS, some (triangleCount A))
    rw [raw_method6 A hSym, Nat.div_one]

/-- The complete graph structure is symmetric. -/
theorem completeB_symm (n : Nat) : IsSymmetric (completeB n) := by
  intro i j
  unfold completeB
  rw [decide_eq_decide]
  exact ne_comm

/-- The complete graph structure has no self-edges. -/
theorem completeB_noDiag (n : Nat) : NoSelfEdges (completeB n) := by
  intro i
  simp [completeB]

/-- A tuple is extracted exactly when the entry is present. -/
theorem mem_extractTuples {n : Nat} (A : BMat n) (p : Fin n × Fin n) :
    p ∈ extractTuples A ↔ A p.1 p.2 = true := by
  rcases p with ⟨i, j⟩
  simp only [extractTuples, List.mem_flatMap, List.mem_map, List.mem_filter,
    List.mem_finRange, true_and, Prod.mk.injEq]
  constructor
  · rintro ⟨a, b, h, rfl, rfl⟩
    exact h
  · intro h
    exact ⟨i, j, h, rfl, rfl⟩

/-- A tuple is kept exactly when the entry is present strictly below the
diagonal. -/
theorem mem_keepLower {n : Nat} (A : BMat n) (p : Fin n × Fin n) :
    p ∈ keepLower A ↔ A p.1 p.2 = true ∧ p.2.val < p.1.val := by
  rw [keepLower, List.mem_filter, mem_extractTuples]
  simp only [decide_eq_true_eq, Fin.lt_def]

/-- The L built by the fallback branch equals tril (A,-1). -/
theorem extract_L_eq {n : Nat} (A : BMat n) :
    (fun i j => decide ((i, j) ∈ keepLower A)) = tril A (-1) := by
  funext i j
  apply bool_eq_of_iff
  rw [tril_apply]
  simp [mem_keepLower]

/-- On a symmetric input the U built by the fallback branch equals
triu (A,1). -/
theorem extract_U_eq {n : Nat} (A : BMat n) (hSym : IsSymmetric A) :
    (fun i j => decide ((j, i) ∈ keepLower A)) = triu A 1 := by
  funext i j
  apply bool_eq_of_iff
  rw [triu_apply, hSym i j]
  simp [mem_keepLower]

/-- A successful run consumes one oracle slot per primitive and every
consulted slot reported success. -/
theorem runOps_ok_facts (oracle : Nat → Option GrB_Info) :
    ∀ (ops : List PrimOp) (k : Nat) (st : TState) (k2 : Nat) (st2 : TState),
      runOps oracle k ops st = (k2, st2, none) →
      k2 = k + ops.length ∧ ∀ m, k ≤ m → m < k2 → oracle m = none := by
  intro ops
  induction ops with
  | nil =>
      intro k st k2 st2 h
      simp only [runOps, Prod.mk.injEq] at h
      obtain ⟨h1, _⟩ := h
      subst h1
      exact ⟨by simp, fun m hm1 hm2 => by omega⟩
  | cons op rest ih =>
      intro k st k2 st2 h
      cases ho : oracle k with
      | some e => simp [runOps, ho] at h
      | none =>
          simp only [runOps, ho] at h
          obtain ⟨h1, h2⟩ := ih (k + 1) (op.effect st) k2 st2 h
          refine ⟨by simp [List.length_cons]; omega, fun m hm1 hm2 => ?_⟩
          rcases Nat.eq_or_lt_of_le hm1 with rfl | hlt
          · exact ho
          · exact h2 m hlt hm2

/-- A failed run surfaces the status of the first failing primitive: some
consulted slot reported it and every earlier slot reported success. -/
theorem runOps_fail_facts (oracle : Nat → Option GrB_Info) :
    ∀ (ops : List PrimOp) (k : Nat) (st : TState) (k2 : Nat) (st2 : TState)
      (e : GrB_Info),
      runOps oracle k ops st = (k2, st2, some e) →
      ∃ j, k ≤ j ∧ oracle j = some e ∧
        ∀ m, k ≤ m → m < j → oracle m = none := by
  intro ops
  induction ops with
  | nil =>
      intro k st k2 st2 e h
      simp [runOps] at h
  | cons op rest ih =>
      intro k st k2 st2 e h
      cases ho : oracle k with
      | some e0 =>
          simp only [runOps, ho, Prod.mk.injEq, Option.some.injEq] at h
          refine ⟨k, le_refl k, ?_, fun m hm1 hm2 => by omega⟩
          rw [ho, h.2.2]
      | none =>
          simp only [runOps, ho] at h
          obtain ⟨j, hj1, hj2, hj3⟩ := ih (k + 1) (op.effect st) k2 st2 e h
          refine ⟨j, by omega, hj2, fun m hm1 hm2 => ?_⟩
          rcases Nat.eq_or_lt_of_le hm1 with rfl | hlt
          · exact ho
          · exact hj3 m hlt hm2

/-- On failure the returned state is the failing primitive's cleanup of the
state reached so far; any property every cleanup establishes holds. -/
theorem runOps_fail_cleanup (Q : TState → Prop) (oracle : Nat → Option GrB_Info) :
    ∀ (ops : List PrimOp) (k : Nat) (st : TState) (k2 : Nat) (st2 : TState)
      (e : GrB_Info),
      (∀ op ∈ ops, ∀ s, Q (op.cleanup s)) →
      runOps oracle k ops st = (k2, st2, some e) → Q st2 := by
  intro ops
  induction ops with
  | nil =>
      intro k st k2 st2 e _ h
      simp [runOps] at h
  | cons op rest ih =>
      intro k st k2 st2 e hQ h
      cases ho : oracle k with
      | some e0 =>
          simp only [runOps, ho, Prod.mk.injEq, Option.some.injEq] at h
          rw [← h.2.1]
          exact hQ op (List.mem_cons_self op rest) st
      | none =>
          simp only [runOps, ho] at h
          exact ih (k + 1) (op.effect st) k2 st2 e
            (fun op2 hop2 => hQ op2 (List.mem_cons_of_mem op hop2)) h

/-- A property preserved by every cleanup and by the effect of every
primitive but the last carries from the initial state to the state returned
on failure. -/
theorem runOps_fail_preserve (P : TState → Prop) (oracle : Nat → Option GrB_Info) :
    ∀ (ops : List PrimOp) (k : Nat) (st : TState) (k2 : Nat) (st2 : TState)
      (e : GrB_Info),
      (∀ op ∈ ops, ∀ s, P s → P (op.cleanup s)) →
      (∀ op ∈ ops.dropLast, ∀ s, P s → P (op.effect s)) →
      P st →
      runOps oracle k ops st = (k2, st2, some e) → P st2 := by
  intro ops
  induction ops with
  | nil =>
      intro k st k2 st2 e _ _ _ h
      simp [runOps] at h
  | cons op rest ih =>
      intro k st k2 st2 e hc he hP h
      cases ho : oracle k with
      | some e0 =>
          simp only [runOps, ho, Prod.mk.injEq, Option.some.injEq] at h
          rw [← h.2.1]
          exact hc op (List.mem_cons_self op rest) st hP
      | none =>
          simp only [runOps, ho] at h
          cases rest with
          | nil => simp [runOps] at h
          | cons r rs =>
              refine ih (k + 1) (op.effect st) k2 st2 e
                (fun op2 hop2 => hc op2 (List.mem_cons_of_mem op hop2))
                (fun op2 hop2 => he op2 ?_)
                (he op ?_ st hP) h
              · exact List.mem_cons_of_mem op hop2
              · exact List.mem_cons_self op (r :: rs).dropLast

/-- A property preserved by every effect carries from the initial state to
the final state of a successful run. -/
theorem runOps_ok_preserve (P : TState → Prop) (oracle : Nat → Option GrB_Info) :
    ∀ (ops : List PrimOp) (k : Nat) (st : TState) (k2 : Nat) (st2 : TState),
      (∀ op ∈ ops, ∀ s, P s → P (op.effect s)) →
      P st →
      runOps oracle k ops st = (k2, st2, none) → P st2 := by
  intro ops
  induction ops with
  | nil =>
      intro k st k2 st2 _ hP h
      simp only [runOps, Prod.mk.injEq] at h
      rw [← h.2.1]
      exact hP
  | cons op rest ih =>
      intro k st k2 st2 he hP h
      cases ho : oracle k with
      | some e0 => simp [runOps, ho] at h
      | none =>
          simp only [runOps, ho] at h
          exact ih (k + 1) (op.effect st) k2 st2
            (fun op2 hop2 => he op2 (List.mem_cons_of_mem op hop2))
            (he op (List.mem_cons_self op rest) st hP) h

/-- Every cleanup reachable from a switch case frees C, L and U. -/
theorem bodyOps_cleanup_dead (m : Int) :
    ∀ op ∈ bodyOps m, ∀ s,
      (op.cleanup s).liveC = false ∧ (op.cleanup s).liveL = false ∧
        (op.cleanup s).liveU = false := by
  unfold bodyOps
  split_ifs <;>
    simp [prepOps, List.forall_mem_append, List.forall_mem_cons,
      mxmOp, reduceOp, prepNrowsOp, scalarNewOp, newLOp, setLOp, selLOp,
      newUOp, setUOp, selUOp, freeThunkOp, prepClean, freeMain, freePrep]

/-- No cleanup reachable from a switch case writes the output ntri. -/
theorem bodyOps_cleanup_ntri (m : Int) :
    ∀ op ∈ bodyOps m, ∀ s,
      s.ntriSet = false → (op.cleanup s).ntriSet = false := by
  unfold bodyOps
  split_ifs <;>
    simp [prepOps, List.forall_mem_append, List.forall_mem_cons,
      mxmOp, reduceOp, prepNrowsOp, scalarNewOp, newLOp, setLOp, selLOp,
      newUOp, setUOp, selUOp, freeThunkOp, prepClean, freeMain, freePrep]

/-- Only the final primitive of a switch case (the reduction) writes the
output ntri. -/
theorem bodyOps_dropLast_ntri (m : Int) :
    ∀ op ∈ (bodyOps m).dropLast, ∀ s,
      s.ntriSet = false → (op.effect s).ntriSet = false := by
  unfold bodyOps
  split_ifs <;> first
    | (rw [List.dropLast_concat]
       simp [prepOps, List.forall_mem_append, List.forall_mem_cons,
         mxmOp, prepNrowsOp, scalarNewOp, newLOp, setLOp, selLOp,
         newUOp, setUOp, selUOp, freeThunkOp])
    | simp

/-- The two header primitives free C, L and U on failure. -/
theorem headerOps_cleanup_dead :
    ∀ op ∈ headerOps, ∀ s,
      (op.cleanup s).liveC = false ∧ (op.cleanup s).liveL = false ∧
        (op.cleanup s).liveU = false := by
  simp [headerOps, List.forall_mem_cons, nrowsOp, newCOp, freeMain]

/-- The header primitives never write the output ntri. -/
theorem headerOps_ntri :
    (∀ op ∈ headerOps, ∀ s, s.ntriSet = false → (op.cleanup s).ntriSet = false)
      ∧ ∀ op ∈ headerOps, ∀ s, s.ntriSet = false → (op.effect s).ntriSet = false := by
  constructor <;>
    simp [headerOps, List.forall_mem_cons, nrowsOp, newCOp, freeMain]

/-- Claim C7: for every method in 1..6 and any failing primitive, the call
releases every intermediate structure (C, L, U), never sets the output ntri,
and surfaces the status of the first failing primitive unchanged. -/
theorem tricount_failure_cleanup (oracle : Nat → Option GrB_Info)
    (method : Int) (hm1 : 1 ≤ method) (hm6 : method ≤ 6)
    (hfail : (tricount_trace oracle method).1 ≠ GrB_SUCCESS) :
    (tricount_trace oracle method).2.liveC = false ∧
    (tricount_trace oracle method).2.liveL = false ∧
    (tricount_trace oracle method).2.liveU = false ∧
    (tricount_trace oracle method).2.ntriSet = false ∧
    ∃ k, oracle k = some (tricount_trace oracle method).1 ∧
      ∀ m, m < k → oracle m = none := by
  have hv : validMethod method = true := by
    simp only [validMethod, Bool.and_eq_true, decide_eq_true_eq]
    omega
  rcases hh : runOps oracle 0 headerOps initState with ⟨k1, st1, r1⟩
  cases r1 with
  | some e =>
      have htr : tricount_trace oracle method = (e, st1) := by
        simp [tricount_trace, hh]
      rw [htr]
      obtain ⟨j, _, hje, hgap⟩ := runOps_fail_facts oracle headerOps 0
        initState k1 st1 e hh
      have hdead := runOps_fail_cleanup
        (fun s => s.liveC = false ∧ s.liveL = false ∧ s.liveU = false)
        oracle headerOps 0 initState k1 st1 e headerOps_cleanup_dead hh
      have hntri := runOps_fail_preserve (fun s => s.ntriSet = false)
        oracle headerOps 0 initState k1 st1 e headerOps_ntri.1
        (fun op hop => headerOps_ntri.2 op (List.dropLast_subset _ hop)) rfl hh
      exact ⟨hdead.1, hdead.2.1, hdead.2.2, hntri,
        j, hje, fun m hm => hgap m (by omega) hm⟩
  | none =>
      obtain ⟨hk1, hnone⟩ := runOps_ok_facts oracle headerOps 0
        initState k1 st1 hh
      have hst1ntri : st1.ntriSet = false := runOps_ok_preserve
        (fun s => s.ntriSet = false) oracle headerOps 0 initState k1 st1
        headerOps_ntri.2 rfl hh
      rcases hb : runOps oracle k1 (bodyOps method) st1 with ⟨k2, st2, r2⟩
      cases r2 with
      | some e =>
          have htr : tricount_trace oracle method = (e, st2) := by
            simp [tricount_trace, hh, hv, hb]
          rw [htr]
          obtain ⟨j, hjk, hje, hgap⟩ := runOps_fail_facts oracle
            (bodyOps method) k1 st1 k2 st2 e hb
          have hdead := runOps_fail_cleanup
            (fun s => s.liveC = false ∧ s.liveL = false ∧ s.liveU = false)
            oracle (bodyOps method) k1 st1 k2 st2 e
            (bodyOps_cleanup_dead method) hb
          have hntri := runOps_fail_preserve (fun s => s.ntriSet = false)
            oracle (bodyOps method) k1 st1 k2 st2 e
            (bodyOps_cleanup_ntri method) (bodyOps_dropLast_ntri method)
            hst1ntri hb
          refine ⟨hdead.1, hdead.2.1, hdead.2.2, hntri,
            j, hje, fun m hm => ?_⟩
          by_cases hmk : m < k1
          · exact hnone m (by omega) (by omega)
          · exact hgap m (by omega) hm
      | none =>
          have htr : tricount_trace oracle method =
              (GrB_SUCCESS, freeMain st2) := by
            simp [tricount_trace, hh, hv, hb]
          rw [htr] at hfail
          simp at hfail

/-- Counterexample to claim C1 as stated: at the out-of-range method 0, with
every primitive succeeding, the call does return the input-validation error,
but one allocation (the product matrix C) has already been performed. -/
theorem tricount_invalid_method_cex :
    (tricount_trace okOracle 0).1 = GrB_INVALID_VALUE ∧
      (tricount_trace okOracle 0).2.allocs ≠ 0 := by
  decide

/-- Claim C1 (amended): for every out-of-range method, once the two header
primitives succeed, the call returns GrB_INVALID_VALUE with no prep, no
multiply, no reduction and the output ntri unset, but only after allocating
the intermediate product matrix C (exactly one allocation), which that
return path does not release. -/
theorem tricount_invalid_method_behavior (oracle : Nat → Option GrB_Info)
    (method : Int) (hm : method < 1 ∨ 6 < method)
    (h0 : oracle 0 = none) (h1 : oracle 1 = none) :
    tricount_trace oracle method =
      (GrB_INVALID_VALUE,
        { liveC := true, liveL := false, liveU := false, liveThunk := false,
          allocs := 1, mxms := 0, reduces := 0, ntriSet := false }) := by
  have hv : validMethod method = false := by
    simp only [validMethod, Bool.and_eq_false_iff, decide_eq_false_iff_not]
    omega
  simp [tricount_trace, runOps, headerOps, h0, h1, hv, nrowsOp, newCOp,
    initState]

/-- Witness for the amended claim C1 at method 7. -/
theorem tricount_invalid_method_behavior_witness :
    tricount_trace okOracle 7 =
      (GrB_INVALID_VALUE,
        { liveC := true, liveL := false, liveU := false, liveThunk := false,
          allocs := 1, mxms := 0, reduces := 0, ntriSet := false }) :=
  tricount_invalid_method_behavior okOracle 7 (Or.inr (by norm_num)) rfl rfl

/-- Counterexample to claim C8 as stated: it is not the case that exactly
one of the six methods passes the transpose-second-input descriptor. -/
theorem tricount_transpose_hint_cex :
    ¬ ((Finset.Icc (1 : Int) 6).filter
        (fun m => usesTranInp1 m = true)).card = 1 := by
  decide

/-- Claim C8 (amended): exactly two of the six methods (5 and 6, the two
dot-product methods) pass the transpose-second-input descriptor desc_st1;
methods 1 to 4 use their second operand untransposed. -/
theorem tricount_transpose_hint_count :
    ((Finset.Icc (1 : Int) 6).filter
        (fun m => usesTranInp1 m = true)).card = 2 ∧
      usesTranInp1 1 = false ∧ usesTranInp1 2 = false ∧
      usesTranInp1 3 = false ∧ usesTranInp1 4 = false ∧
      usesTranInp1 5 = true ∧ usesTranInp1 6 = true := by
  decide

/-- Claim C2: on a symmetric, self-edge-free input every method in 1..6
returns the true triangle count; in particular every method returns exactly
1 on the complete structure among 3 nodes and n(n-1)(n-2)/6 on the complete
graph on n nodes. -/
theorem tricount_counts_triangles :
    (∀ (n : Nat) (A : BMat n) (m : Int), 1 ≤ m → m ≤ 6 → IsSymmetric A →
        NoSelfEdges A →
        LAGraph_tricount m A = (GrB_SUCCESS, some (triangleCount A))) ∧
    (∀ m : Int, 1 ≤ m → m ≤ 6 →
        LAGraph_tricount m (completeB 3) = (GrB_SUCCESS, some 1)) ∧
    (∀ (n : Nat) (m : Int), 3 ≤ n → 1 ≤ m → m ≤ 6 →
        LAGraph_tricount m (completeB n) =
          (GrB_SUCCESS, some (n * (n - 1) * (n - 2) / 6))) := by
  refine ⟨fun n A m h1 h6 hS hD => tricount_correct m A h1 h6 hS hD, ?_, ?_⟩
  · intro m h1 h6
    rw [tricount_correct m (completeB 3) h1 h6 (completeB_symm 3)
      (completeB_noDiag 3), triangleCount_complete]
    norm_num
  · intro n m h3 h1 h6
    rw [tricount_correct m (completeB n) h1 h6 (completeB_symm n)
      (completeB_noDiag n), triangleCount_complete, choose_three_formula]

/-- Witness for claim C2: concrete instances on complete graphs. -/
theorem tricount_counts_triangles_witness :
    LAGraph_tricount 2 (completeB 3) =
        (GrB_SUCCESS, some (triangleCount (completeB 3))) ∧
      LAGraph_tricount 4 (completeB 3) = (GrB_SUCCESS, some 1) ∧
      LAGraph_tricount 6 (completeB 4) = (GrB_SUCCESS, some (4 * 3 * 2 / 6)) :=
  ⟨tricount_counts_triangles.1 3 (completeB 3) 2 (by norm_num) (by norm_num)
      (by decide) (by decide),
    tricount_counts_triangles.2.1 4 (by norm_num) (by norm_num),
    tricount_counts_triangles.2.2 4 6 (by norm_num) (by norm_num) (by norm_num)⟩

/-- Claim C3: on the same symmetric, self-edge-free input any two valid
methods return identical results. -/
theorem tricount_methods_agree (n : Nat) (A : BMat n) (m1 m2 : Int)
    (h11 : 1 ≤ m1) (h16 : m1 ≤ 6) (h21 : 1 ≤ m2) (h26 : m2 ≤ 6)
    (hSym : IsSymmetric A) (hDiag : NoSelfEdges A) :
    LAGraph_tricount m1 A = LAGraph_tricount m2 A := by
  rw [tricount_correct m1 A h11 h16 hSym hDiag,
    tricount_correct m2 A h21 h26 hSym hDiag]

/-- Witness for claim C3: methods 1 and 5 agree on the triangle. -/
theorem tricount_methods_agree_witness :
    LAGraph_tricount 1 (completeB 3) = LAGraph_tricount 5 (completeB 3) :=
  tricount_methods_agree 3 (completeB 3) 1 5 (by norm_num) (by norm_num)
    (by norm_num) (by norm_num) (by decide) (by decide)

/-- Claim C4: the builder's outputs satisfy the round-trip property: the
union of L, U and A's diagonal reconstructs A exactly, and L transposed
equals U. -/
theorem tricount_prep_roundtrip {n : Nat} (A : BMat n)
    (hSym : IsSymmetric A) (_hDiag : NoSelfEdges A) :
    ∀ L U, tricount_prep_select true true A = (some L, some U) →
      (∀ i j, (L i j || U i j || (decide (i = j) && A i j)) = A i j) ∧
        transposeB L = U := by
  intro L U h
  simp only [tricount_prep_select, if_true, Prod.mk.injEq,
    Option.some.injEq] at h
  obtain ⟨hL, hU⟩ := h
  subst hL
  subst hU
  constructor
  · intro i j
    rw [tril_apply, triu_apply]
    rcases Nat.lt_trichotomy i.val j.val with hlt | heq | hgt
    · have h1 : decide (j.val < i.val) = false := decide_eq_false (by omega)
      have h2 : decide (i.val < j.val) = true := decide_eq_true hlt
      have h3 : decide (i = j) = false :=
        decide_eq_false (fun he => by rw [he] at hlt; omega)
      rw [h1, h2, h3]
      simp
    · have hij : i = j := Fin.ext heq
      subst hij
      simp
    · have h1 : decide (j.val < i.val) = true := decide_eq_true hgt
      have h2 : decide (i.val < j.val) = false := decide_eq_false (by omega)
      have h3 : decide (i = j) = false :=
        decide_eq_false (fun he => by rw [he] at hgt; omega)
      rw [h1, h2, h3]
      simp
  · exact transposeB_tril A hSym

/-- Witness for claim C4 on the triangle. -/
theorem tricount_prep_roundtrip_witness :
    (∀ i j, (tril (completeB 3) (-1) i j || triu (completeB 3) 1 i j ||
        (decide (i = j) && completeB 3 i j)) = completeB 3 i j) ∧
      transposeB (tril (completeB 3) (-1)) = triu (completeB 3) 1 :=
  tricount_prep_roundtrip (completeB 3) (by decide) (by decide)
    (tril (completeB 3) (-1)) (triu (completeB 3) 1) rfl

/-- Claim C5: on a symmetric input, for every requested combination of
outputs, the select-based builder and the extract-filter-rebuild fallback
builder produce structurally identical results. -/
theorem tricount_prep_strategies_agree {n : Nat} (A : BMat n)
    (wantL wantU : Bool) (hSym : IsSymmetric A) :
    tricount_prep_select wantL wantU A = tricount_prep_extract wantL wantU A := by
  cases wantL <;> cases wantU <;>
    simp [tricount_prep_select, tricount_prep_extract, extract_L_eq A,
      extract_U_eq A hSym]

/-- Witness for claim C5 on the triangle, with both outputs requested. -/
theorem tricount_prep_strategies_agree_witness :
    tricount_prep_select true true (completeB 3) =
      tricount_prep_extract true true (completeB 3) :=
  tricount_prep_strategies_agree (completeB 3) true true (by decide)

/-- Claim C6: on a symmetric, self-edge-free input with at least one
triangle, the raw pre-division reduction of method 1 is exactly six times
the true triangle count and that of method 2 exactly twice. -/
theorem tricount_raw_divisors {n : Nat} (A : BMat n) (hSym : IsSymmetric A)
    (hDiag : NoSelfEdges A) (_hT : 1 ≤ triangleCount A) :
    rawReduction 1 A = 6 * triangleCount A ∧
      rawReduction 2 A = 2 * triangleCount A := by
  constructor
  · show mxmReduce A A A = 6 * triangleCount A
    exact raw_method1 A hSym hDiag
  · show mxmReduce A (tril A (-1)) (triu A 1) = 2 * triangleCount A
    exact raw_method2 A hSym hDiag

/-- Witness for claim C6 on the triangle. -/
theorem tricount_raw_divisors_witness :
    rawReduction 1 (completeB 3) = 6 * triangleCount (completeB 3) ∧
      rawReduction 2 (completeB 3) = 2 * triangleCount (completeB 3) :=
  tricount_raw_divisors (completeB 3) (by decide) (by decide) (by decide)

/-- Claim C9: on a symmetric, self-edge-free input the raw reduction of
method 1 is divisible by 6 and that of method 2 by 2, so the integer
divisions are exact and both methods return the exact count. -/
theorem tricount_division_exact {n : Nat} (A : BMat n)
    (hSym : IsSymmetric A) (hDiag : NoSelfEdges A) :
    6 ∣ rawReduction 1 A ∧ 2 ∣ rawReduction 2 A ∧
      (LAGraph_tricount 1 A).2 = some (triangleCount A) ∧
      (LAGraph_tricount 2 A).2 = some (triangleCount A) := by
  refine ⟨?_, ?_, ?_, ?_⟩
  · show 6 ∣ mxmReduce A A A
    rw [raw_method1 A hSym hDiag]
    exact dvd_mul_right 6 _
  · show 2 ∣ mxmReduce A (tril A (-1)) (triu A 1)
    rw [raw_method2 A hSym hDiag]
    exact dvd_mul_right 2 _
  · rw [tricount_correct 1 A (by norm_num) (by norm_num) hSym hDiag]
  · rw [tricount_correct 2 A (by norm_num) (by norm_num) hSym hDiag]

/-- Witness for claim C9 on the triangle. -/
theorem tricount_division_exact_witness :
    6 ∣ rawReduction 1 (completeB 3) ∧ 2 ∣ rawReduction 2 (completeB 3) ∧
      (LAGraph_tricount 1 (completeB 3)).2 = some (triangleCount (completeB 3)) ∧
      (LAGraph_tricount 2 (completeB 3)).2 = some (triangleCount (completeB 3)) :=
  tricount_division_exact (completeB 3) (by decide) (by decide)

/-- Claim C10: on a symmetric input with self-edges, methods 3 to 6 return
exactly what they return on the input with its diagonal removed: the
strictly triangular extraction discards diagonal entries. -/
theorem tricount_diag_insensitive {n : Nat} (A : BMat n) (m : Int)
    (_hSym : IsSymmetric A) (_hdiag : ∃ i, A i i = true)
    (hm : m = 3 ∨ m = 4 ∨ m = 5 ∨ m = 6) :
    LAGraph_tricount m A = LAGraph_tricount m (removeDiag A) := by
  have hL : tril (removeDiag A) (-1) = tril A (-1) := by
    funext i j
    rw [tril_apply, tril_apply]
    simp only [removeDiag]
    by_cases h : j.val < i.val
    · have hne : i ≠ j := fun he => by rw [he] at h; omega
      rw [if_neg hne]
    · rw [decide_eq_false h]
      simp
  have hU : triu (removeDiag A) 1 = triu A 1 := by
    funext i j
    rw [triu_apply, triu_apply]
    simp only [removeDiag]
    by_cases h : i.val < j.val
    · have hne : i ≠ j := fun he => by rw [he] at h; omega
      rw [if_neg hne]
    · rw [decide_eq_false h]
      simp
  rcases hm with rfl | rfl | rfl | rfl
  · show (GrB_SUCCESS,
        some (mxmReduce (tril A (-1)) (tril A (-1)) (tril A (-1)) / 1)) =
      (GrB_SUCCESS, some (mxmReduce (tril (removeDiag A) (-1))
        (tril (removeDiag A) (-1)) (tril (removeDiag A) (-1)) / 1))
    rw [hL]
  · show (GrB_SUCCESS,
        some (mxmReduce (triu A 1) (triu A 1) (triu A 1) / 1)) =
      (GrB_SUCCESS, some (mxmReduce (triu (removeDiag A) 1)
        (triu (removeDiag A) 1) (triu (removeDiag A) 1) / 1))
    rw [hU]
  · show (GrB_SUCCESS, some (mxmReduce (tril A (-1)) (tril A (-1))
        (transposeB (triu A 1)) / 1)) =
      (GrB_SUCCESS, some (mxmReduce (tril (removeDiag A) (-1))
        (tril (removeDiag A) (-1)) (transposeB (triu (removeDiag A) 1)) / 1))
    rw [hL, hU]
  · show (GrB_SUCCESS, some (mxmReduce (triu A 1) (triu A 1)
        (transposeB (tril A (-1))) / 1)) =
      (GrB_SUCCESS, some (mxmReduce (triu (removeDiag A) 1)
        (triu (removeDiag A) 1) (transposeB (tril (removeDiag A) (-1))) / 1))
    rw [hL, hU]

/-- Witness for claim C10: the triangle with an added self-edge at node 0,
method 3. -/
theorem tricount_diag_insensitive_witness :
    LAGraph_tricount 3 loopTriangle =
      LAGraph_tricount 3 (removeDiag loopTriangle) :=
  tricount_diag_insensitive loopTriangle 3 (by decide) (by decide)
    (Or.inl rfl)

/-- Witness for claim C7: method 3 with an out-of-memory failure at the
first primitive of the switch body. -/
theorem tricount_failure_cleanup_witness :
    (tricount_trace oomOracle 3).2.liveC = false ∧
    (tricount_trace oomOracle 3).2.liveL = false ∧
    (tricount_trace oomOracle 3).2.liveU = false ∧
    (tricount_trace oomOracle 3).2.ntriSet = false ∧
    ∃ k, oomOracle k = some (tricount_trace oomOracle 3).1 ∧
      ∀ m, m < k → oomOracle m = none :=
  tricount_failure_cleanup oomOracle 3 (by norm_num) (by norm_num) (by decide)
